import Mathlib

/-!
Verification of the rrvideo recording orchestration engine, a shallow
embedding of src/index.ts of the rrweb-io/rrvideo repository.

Modelling conventions:
- JavaScript falsiness of option values (undefined, 0, the empty string,
  false) is modelled explicitly by the jsOr* helpers, which embed the
  JS expression `x || d` at each option type.
- The value stored in `this.processError` and the second argument of the
  `cb` callback can be `null`, an Error object, or (in `getConsoleMsg`)
  a plain string; the type `JSErr` models these three shapes together
  with their JS truthiness.
- The promise returned by `transformToVideo` settles at most once; the
  field `OrchState.result` models the settled value of that promise, and
  `promiseSettle` models a call of `resolve`/`reject` on it.
- Asynchronous events (exposed-function calls from the page, ffmpeg
  process events, console messages, setup failure) are modelled as a
  list of `Signal` values folded over the handler bodies by `run`.
-/

/-- JS truthiness of an optional number: `undefined` and `0` are falsy.
Used for the checks on `width`/`height` (src/index.ts line 149). -/
def truthyNumber : Option Nat → Bool
  | none => false
  | some n => n != 0

/-- Embedding of `x || d` for a numeric option (src/index.ts lines 105, 107). -/
def jsOrNat (x : Option Nat) (d : Nat) : Nat :=
  match x with
  | none => d
  | some n => if n = 0 then d else n

/-- Embedding of `x || d` for a boolean option (src/index.ts line 106). -/
def jsOrBool (x : Option Bool) (d : Bool) : Bool :=
  match x with
  | none => d
  | some b => if b then b else d

/-- Embedding of `x || d` for a string option (src/index.ts lines 107, 109):
the empty string is falsy. -/
def jsOrString (x : Option String) (d : String) : String :=
  match x with
  | none => d
  | some s => if s = "" then d else s

/-- The rrweb-player display options that the orchestrator inspects
(`rrwebPlayer` passthrough record, src/index.ts lines 16-19 and 84). -/
structure PlayerOptions where
  width : Option Nat := none
  height : Option Nat := none
  autoPlay : Option Bool := none
  startDelayTime : Option Nat := none
deriving DecidableEq, Repr

/-- The effective configuration record (src/index.ts lines 78-85),
without the `cb` field, which is modelled separately by the promise. -/
structure RRvideoConfig where
  fps : Nat
  headless : Bool
  input : String
  output : String
  rrwebPlayer : PlayerOptions
deriving DecidableEq, Repr

/-- `defaultConfig` (src/index.ts lines 87-94). -/
def defaultConfig : RRvideoConfig :=
  { fps := 15
    headless := true
    input := ""
    output := "rrvideo-output.mp4"
    rrwebPlayer := {} }

/-- The caller-supplied constructor options (src/index.ts line 103):
every field may be absent. -/
structure ConfigOptions where
  fps : Option Nat := none
  headless : Option Bool := none
  input : Option String := none
  output : Option String := none
  rrwebPlayer : Option PlayerOptions := none
deriving DecidableEq, Repr

/-- The constructor body of `RRvideo` (src/index.ts lines 104-111):
each field is `config?.field || defaultConfig.field`. An object option
(`rrwebPlayer`) is always truthy when present. -/
def mkConfig (c : ConfigOptions) : RRvideoConfig :=
  { fps := jsOrNat c.fps defaultConfig.fps
    headless := jsOrBool c.headless defaultConfig.headless
    input := jsOrString c.input defaultConfig.input
    output := jsOrString c.output defaultConfig.output
    rrwebPlayer := c.rrwebPlayer.getD defaultConfig.rrwebPlayer }

/-- The playback start delay computed inside the injected page script
(src/index.ts line 52): `userConfig.startDelayTime || 1000`. -/
def startDelay (p : PlayerOptions) : Nat :=
  jsOrNat p.startDelayTime 1000

/-- The effective `autoPlay` value of the injected player props
(src/index.ts lines 46-47): the literal `autoPlay: false` is overridden
by a user-supplied value through the object spread. -/
def effAutoPlay (p : PlayerOptions) : Bool :=
  p.autoPlay.getD false

/-- The on-page region selector chosen on the recording transition
(src/index.ts lines 148-151): `.rr-player` when both `width` and
`height` are truthy, `.replayer-wrapper` otherwise. -/
def wrapperSelector (p : PlayerOptions) : String :=
  if truthyNumber p.width && truthyNumber p.height then ".rr-player" else ".replayer-wrapper"

/-- The argument vector passed to `spawn("ffmpeg", args)`
(src/index.ts lines 159-171). -/
def ffmpegArgs (c : RRvideoConfig) : List String :=
  ["-framerate", Nat.repr c.fps, "-f", "image2pipe", "-i", "-", "-y", c.output]

/-- The lifecycle state of the orchestrator (src/index.ts line 99). -/
inductive LifecycleState
  | idle
  | recording
  | closed
deriving DecidableEq, Repr

/-- Numeric order of lifecycle states along the forward direction
idle, recording, closed. -/
def rank : LifecycleState → Nat
  | LifecycleState.idle => 0
  | LifecycleState.recording => 1
  | LifecycleState.closed => 2

/-- A JS value used in error positions: `null`, a plain string, or an
Error object (carrying its message). -/
inductive JSErr
  | null
  | str (s : String)
  | errObj (msg : String)
deriving DecidableEq, Repr

/-- JS truthiness of an error-position value: `null` is falsy, a string
is truthy when nonempty, an Error object is always truthy. -/
def JSErr.truthy : JSErr → Bool
  | JSErr.null => false
  | JSErr.str s => if s = "" then false else true
  | JSErr.errObj _ => true

/-- The settled value of the promise returned by `transformToVideo`:
resolved with a file path, or rejected with an error value. -/
inductive TermResult
  | resolved (file : String)
  | rejected (e : JSErr)
deriving DecidableEq, Repr

/-- The body of the `cb` installed by `transformToVideo`
(src/index.ts lines 245-250): a truthy error rejects, otherwise the
file path resolves. -/
def cbOutcome (file : String) (error : JSErr) : TermResult :=
  if error.truthy then TermResult.rejected error else TermResult.resolved file

/-- Settling a promise: the first settlement wins, any further call of
`resolve`/`reject` is a no-op (JS promise semantics for the promise
created in src/index.ts line 242). -/
def promiseSettle (r : Option TermResult) (t : TermResult) : Option TermResult :=
  match r with
  | some u => some u
  | none => some t

/-- The mutable state of one orchestration run: `this.state`
(src/index.ts line 99), `this.processError` (line 101), whether
`browser.close()` has been invoked (line 223), and the settled value of
the result promise. -/
structure OrchState where
  state : LifecycleState
  processError : JSErr
  browserClosed : Bool
  result : Option TermResult
deriving DecidableEq, Repr

/-- The state at the beginning of a run: state `idle`, `processError`
null, browser open, promise pending. -/
def initState : OrchState :=
  { state := LifecycleState.idle
    processError := JSErr.null
    browserClosed := false
    result := none }

/-- The marker printed by the injected script when the replayer throws
(src/index.ts line 70). -/
def markerChars : List Char := "Replayer Uncaught Error:".data

/-- Embedding of `text.indexOf("Replayer Uncaught Error:") == 0`
(src/index.ts line 228). -/
def startsWithMarker (text : String) : Bool :=
  markerChars.isPrefixOf text.data

/-- The asynchronous events that can reach the orchestrator during a
run: the two page signals (exposed functions, src/index.ts lines
127-133), the three ffmpeg events (lines 199-218), a console message
(lines 123-125, 226-236), and a setup failure (lines 141-143). -/
inductive Signal
  | start
  | finish
  | ffmpegClose
  | ffmpegError (e : String)
  | stdinError (e : String)
  | consoleMsg (ty : String) (text : String)
  | setupFail (e : String)
deriving DecidableEq, Repr

/-- One handler invocation of the orchestrator. Each branch is the body
of the corresponding handler in src/index.ts:
`startRecording` line 147; `finishRecording` lines 221-224; the
`close`, `error` and stdin `error` handlers lines 199-218; the
`getConsoleMsg` body lines 226-236 (which calls `finishRecording`,
resets `processError` to null and passes the full message text to
`cb`); and the `init` catch block lines 141-143. -/
def step (outputPath : String) (s : OrchState) : Signal → OrchState
  | Signal.start => { s with state := LifecycleState.recording }
  | Signal.finish => { s with state := LifecycleState.closed, browserClosed := true }
  | Signal.ffmpegClose =>
      if s.processError.truthy then s
      else { s with result := promiseSettle s.result (cbOutcome outputPath JSErr.null) }
  | Signal.ffmpegError e =>
      if s.processError.truthy then s
      else { s with
        processError := JSErr.errObj e
        result := promiseSettle s.result (cbOutcome outputPath (JSErr.errObj e)) }
  | Signal.stdinError e =>
      if s.processError.truthy then s
      else { s with
        processError := JSErr.errObj e
        result := promiseSettle s.result (cbOutcome outputPath (JSErr.errObj e)) }
  | Signal.consoleMsg ty text =>
      if ty = "error" ∧ startsWithMarker text = true then
        { s with
          state := LifecycleState.closed
          browserClosed := true
          processError := JSErr.null
          result := promiseSettle s.result (cbOutcome "" (JSErr.str text)) }
      else s
  | Signal.setupFail e =>
      { s with result := promiseSettle s.result (cbOutcome "" (JSErr.errObj e)) }

/-- A whole run: the handlers folded over a list of arriving signals. -/
def run (outputPath : String) (s : OrchState) (sigs : List Signal) : OrchState :=
  sigs.foldl (step outputPath) s

/-- The value a handler passes to `cb` when processed in state `s`, if
it calls `cb` at all (already settled through `cbOutcome`). -/
def stepCb (outputPath : String) (s : OrchState) : Signal → Option TermResult
  | Signal.start => none
  | Signal.finish => none
  | Signal.ffmpegClose =>
      if s.processError.truthy then none else some (cbOutcome outputPath JSErr.null)
  | Signal.ffmpegError e =>
      if s.processError.truthy then none else some (cbOutcome outputPath (JSErr.errObj e))
  | Signal.stdinError e =>
      if s.processError.truthy then none else some (cbOutcome outputPath (JSErr.errObj e))
  | Signal.consoleMsg ty text =>
      if ty = "error" ∧ startsWithMarker text = true then some (cbOutcome "" (JSErr.str text))
      else none
  | Signal.setupFail e => some (cbOutcome "" (JSErr.errObj e))

/-- The outcome of the first `cb` call along a run, if any. -/
def firstCb (outputPath : String) (s : OrchState) : List Signal → Option TermResult
  | [] => none
  | sig :: rest =>
      match stepCb outputPath s sig with
      | some t => some t
      | none => firstCb outputPath (step outputPath s sig) rest

/-- Whether a signal drives the lifecycle state to `closed`: the finish
signal, or a console message hitting the error-marker check. -/
def closesRun : Signal → Bool
  | Signal.finish => true
  | Signal.consoleMsg ty text =>
      if ty = "error" ∧ startsWithMarker text = true then true else false
  | _ => false

/-- No start signal arrives after a closing signal anywhere in the
list (the ordering the injected payload guarantees). -/
def noStartAfterClose : List Signal → Prop
  | [] => True
  | sig :: rest => (closesRun sig = true → Signal.start ∉ rest) ∧ noStartAfterClose rest

/-- Outcome of one frame-capture attempt inside the timer callback
(src/index.ts lines 181-183): the screenshot either yields a frame or
throws. -/
inductive CaptureOutcome
  | captured
  | failed
deriving DecidableEq, Repr

/-- Observable state of the capture loop and of the ffmpeg stdin pipe:
whether the interval timer is still scheduled, how many frames have
been written, and whether `stdin.end()` has been called. -/
structure LoopState where
  timerActive : Bool
  framesWritten : Nat
  stdinEnded : Bool
deriving DecidableEq, Repr

/-- The body of the `setInterval` callback (src/index.ts lines 178-194):
while the state is `recording` and no process error is latched, one
capture is attempted, a throwing capture being swallowed by the empty
catch block; otherwise the timer is cleared and `stdin.end()` is called
exactly when the state is `closed` with no latched error. -/
def tick (st : LifecycleState) (procErr : JSErr) (cap : CaptureOutcome) (ls : LoopState) :
    LoopState :=
  if st = LifecycleState.recording ∧ procErr.truthy = false then
    match cap with
    | CaptureOutcome.captured => { ls with framesWritten := ls.framesWritten + 1 }
    | CaptureOutcome.failed => ls
  else
    { ls with
      timerActive := false
      stdinEnded :=
        if st = LifecycleState.closed ∧ procErr.truthy = false then true else ls.stdinEnded }

/-- The serialized-events characters of the script-closing tag, the
pattern of the regex in src/index.ts line 35. -/
def scriptCloseChars : List Char := "</script>".data

/-- The replacement written for each occurrence (src/index.ts line 36). -/
def escapedScriptChars : List Char := "<\\/script>".data

/-- The characters of the pattern after its first character. -/
def scriptTailChars : List Char := "/script>".data

/-- Embedding of `s.replace(/<\/script>/g, "<\\/script>")` applied to
the serialized events string (src/index.ts lines 34-37): a left-to-right
scan replacing each non-overlapping occurrence of the nine-character
pattern and continuing after it. -/
def replaceScriptClose : List Char → List Char
  | [] => []
  | c :: cs =>
    if scriptCloseChars.isPrefixOf (c :: cs) then
      escapedScriptChars ++ replaceScriptClose (cs.drop 8)
    else
      c :: replaceScriptClose cs
termination_by l => l.length
decreasing_by
  · simp only [ List.length_cons, List.length_drop]
    omega
  · simp

/-- Executable scan deciding whether the script-closing pattern occurs
anywhere in a character sequence. -/
def hasScriptClose : List Char → Bool
  | [] => false
  | c :: cs => scriptCloseChars.isPrefixOf (c :: cs) || hasScriptClose cs

/-- Constructor options with every recognised option set to a falsy
value, used as a concrete sample. -/
def falsyConfigOptions : ConfigOptions :=
  { fps := some 0, headless := some false, input := none, output := some "", rrwebPlayer := none }

/-- Constructor options with nothing provided, used as a concrete
sample. -/
def emptyConfigOptions : ConfigOptions := {}

/-- C4: whenever a constructor option is set to a falsy value
(headless false, fps 0, output the empty string), the merged
configuration silently replaces it with the default, and the effective
`headless` flag is `true` for every possible option record, so a
visible rendering host can never be requested through the constructor. -/
theorem falsy_options_replaced (c : ConfigOptions) :
    (mkConfig c).headless = true ∧
    (c.fps = some 0 → (mkConfig c).fps = 15) ∧
    (c.output = some "" → (mkConfig c).output = "rrvideo-output.mp4") ∧
    (c.headless = some false → (mkConfig c).headless = true) := by
  refine ⟨?_, ?_, ?_, ?_⟩
  · rcases h : c.headless with _ | b
    · simp [ mkConfig, jsOrBool, h, defaultConfig]
    · cases b <;> simp [ mkConfig, jsOrBool, h, defaultConfig]
  · intro h
    simp [ mkConfig, jsOrNat, h, defaultConfig]
  · intro h
    simp [ mkConfig, jsOrString, h, defaultConfig]
  · intro h
    simp [ mkConfig, jsOrBool, h, defaultConfig]

/-- Witness for C4 at the all-falsy option record. -/
theorem falsy_options_replaced_witness :
    (mkConfig falsyConfigOptions).headless = true ∧
    (mkConfig falsyConfigOptions).fps = 15 ∧
    (mkConfig falsyConfigOptions).output = "rrvideo-output.mp4" :=
  ⟨(falsy_options_replaced falsyConfigOptions).1,
    (falsy_options_replaced falsyConfigOptions).2.1 rfl,
    (falsy_options_replaced falsyConfigOptions).2.2.1 rfl⟩

/-- C9: an option that is not provided takes its documented default:
fps 15, headless true, output "rrvideo-output.mp4", start delay 1000 ms
and autoplay off in the injected player options. -/
theorem documented_defaults (c : ConfigOptions) :
    (c.fps = none → (mkConfig c).fps = 15) ∧
    (c.headless = none → (mkConfig c).headless = true) ∧
    (c.output = none → (mkConfig c).output = "rrvideo-output.mp4") ∧
    (c.rrwebPlayer = none →
      startDelay (mkConfig c).rrwebPlayer = 1000 ∧
      effAutoPlay (mkConfig c).rrwebPlayer = false) := by
  refine ⟨?_, ?_, ?_, ?_⟩
  · intro h
    simp [ mkConfig, jsOrNat, h, defaultConfig]
  · intro h
    simp [ mkConfig, jsOrBool, h, defaultConfig]
  · intro h
    simp [ mkConfig, jsOrString, h, defaultConfig]
  · intro h
    simp [ mkConfig, h, defaultConfig, startDelay, jsOrNat, effAutoPlay]

/-- Witness for C9 at the empty option record. -/
theorem documented_defaults_witness :
    (mkConfig emptyConfigOptions).fps = 15 ∧
    (mkConfig emptyConfigOptions).headless = true ∧
    (mkConfig emptyConfigOptions).output = "rrvideo-output.mp4" ∧
    (startDelay (mkConfig emptyConfigOptions).rrwebPlayer = 1000 ∧
      effAutoPlay (mkConfig emptyConfigOptions).rrwebPlayer = false) :=
  ⟨(documented_defaults emptyConfigOptions).1 rfl,
    (documented_defaults emptyConfigOptions).2.1 rfl,
    (documented_defaults emptyConfigOptions).2.2.1 rfl,
    (documented_defaults emptyConfigOptions).2.2.2 rfl⟩

/-- C8: the encoder subprocess argument vector is exactly the
frame-rate flag with the configured rate, the image-pipe input reading
standard input, the unconditional overwrite flag, and the configured
output path, in that order. -/
theorem ffmpeg_args_shape (c : RRvideoConfig) :
    ffmpegArgs c
      = ["-framerate", Nat.repr c.fps]
          ++ ["-f", "image2pipe", "-i", "-"] ++ ["-y"] ++ [c.output] := rfl

/-- C5: any number of consecutive failing capture attempts while the
state is `recording` with no latched error leaves the loop state
entirely unchanged: the timer stays scheduled, nothing is written,
stdin is not closed, and no error is produced. -/
theorem capture_failures_skipped (n : Nat) (ls : LoopState) :
    (tick LifecycleState.recording JSErr.null CaptureOutcome.failed)^[n] ls = ls :=
  Function.iterate_fixed rfl n

/-- C6: on a tick where the state is no longer `recording`, the timer
is cancelled, and stdin is closed exactly when the state is `closed`
with no latched error; in particular no close signal is sent when an
error is latched. -/
theorem loop_stop_close_iff (st : LifecycleState) (procErr : JSErr) (cap : CaptureOutcome)
    (ls : LoopState) (hst : st ≠ LifecycleState.recording) (hend : ls.stdinEnded = false) :
    (tick st procErr cap ls).timerActive = false ∧
    ((tick st procErr cap ls).stdinEnded = true ↔
      (st = LifecycleState.closed ∧ procErr.truthy = false)) := by
  have hcond : ¬ (st = LifecycleState.recording ∧ procErr.truthy = false) := fun h => hst h.1
  unfold tick
  rw [if_neg hcond]
  refine ⟨rfl, ?_⟩
  by_cases hc : st = LifecycleState.closed ∧ procErr.truthy = false
  · rw [if_pos hc]
    simp [hc]
  · rw [if_neg hc]
    simp [hend, hc]

/-- Witness for C6: a tick observed in state `closed` with no latched
error cancels the timer and closes stdin. -/
theorem loop_stop_close_iff_witness :
    (tick LifecycleState.closed JSErr.null CaptureOutcome.failed
        { timerActive := true, framesWritten := 0, stdinEnded := false }).timerActive = false ∧
    ((tick LifecycleState.closed JSErr.null CaptureOutcome.failed
        { timerActive := true, framesWritten := 0, stdinEnded := false }).stdinEnded = true ↔
      (LifecycleState.closed = LifecycleState.closed ∧ JSErr.null.truthy = false)) :=
  loop_stop_close_iff LifecycleState.closed JSErr.null CaptureOutcome.failed
    { timerActive := true, framesWritten := 0, stdinEnded := false } (by decide) rfl

/-- Counterexample for C7: width explicitly configured as 0 together
with an explicit height leaves the default wrapper selector, although
both dimensions were explicitly configured. -/
theorem wrapper_selector_zero_counterexample :
    ({ width := some 0, height := some 100 } : PlayerOptions).width.isSome = true ∧
    ({ width := some 0, height := some 100 } : PlayerOptions).height.isSome = true ∧
    wrapperSelector { width := some 0, height := some 100 } = ".replayer-wrapper" := by
  refine ⟨rfl, rfl, ?_⟩
  decide

/-- C7 (amended): the wide layout selector is chosen exactly when both
`width` and `height` are configured with truthy (nonzero) values;
otherwise the default wrapper selector is chosen. -/
theorem wrapper_selector_truthy_iff (p : PlayerOptions) :
    (wrapperSelector p = ".rr-player" ↔
      ((∃ n, p.width = some n ∧ n ≠ 0) ∧ (∃ m, p.height = some m ∧ m ≠ 0))) ∧
    (wrapperSelector p = ".rr-player" ∨ wrapperSelector p = ".replayer-wrapper") := by
  have hstr : (".replayer-wrapper" : String) ≠ ".rr-player" := by decide
  constructor
  · by_cases hb : (truthyNumber p.width && truthyNumber p.height) = true
    · unfold wrapperSelector
      rw [if_pos hb]
      rw [Bool.and_eq_true] at hb
      constructor
      · intro _
        constructor
        · rcases hw : p.width with _ | n
          · rw [hw] at hb
            simp [ truthyNumber] at hb
          · refine ⟨n, rfl, ?_⟩
            rw [hw] at hb
            simpa [ truthyNumber] using hb.1
        · rcases hh : p.height with _ | m
          · rw [hh] at hb
            simp [ truthyNumber] at hb
          · refine ⟨m, rfl, ?_⟩
            rw [hh] at hb
            simpa [ truthyNumber] using hb.2
      · intro _
        rfl
    · unfold wrapperSelector
      rw [if_neg hb]
      constructor
      · intro h
        exact absurd h hstr
      · rintro ⟨⟨n, hn, hn0⟩, ⟨m, hm, hm0⟩⟩
        exfalso
        apply hb
        rw [Bool.and_eq_true]
        exact ⟨by simp [ truthyNumber, hn, hn0], by simp [ truthyNumber, hm, hm0]⟩
  · unfold wrapperSelector
    split
    · exact Or.inl rfl
    · exact Or.inr rfl

/-- A settled promise stays settled across one handler invocation. -/
theorem step_result_some (out : String) (s : OrchState) (sig : Signal) (r : TermResult)
    (h : s.result = some r) : (step out s sig).result = some r := by
  cases sig <;> simp only [ step] <;> (try split) <;> simp [ promiseSettle, h]

/-- A settled promise stays settled across a whole run. -/
theorem run_result_some (out : String) (sigs : List Signal) :
    ∀ (s : OrchState) (r : TermResult), s.result = some r → (run out s sigs).result = some r := by
  induction sigs with
  | nil =>
    intro s r h
    exact h
  | cons sig rest ih =>
    intro s r h
    exact ih (step out s sig) r (step_result_some out s sig r h)

/-- With a pending promise, the result after one handler invocation is
exactly the value that handler passed to `cb`, if any. -/
theorem step_result_none (out : String) (s : OrchState) (sig : Signal)
    (h : s.result = none) : (step out s sig).result = stepCb out s sig := by
  cases sig <;> simp only [ step, stepCb] <;> (try split) <;> simp [ promiseSettle, h]

/-- With a pending promise, the result of a run is the outcome of the
first `cb` call along it. -/
theorem run_result_none (out : String) (sigs : List Signal) :
    ∀ s : OrchState, s.result = none → (run out s sigs).result = firstCb out s sigs := by
  induction sigs with
  | nil =>
    intro s h
    exact h.trans rfl
  | cons sig rest ih =>
    intro s h
    have hstep := step_result_none out s sig h
    cases hcb : stepCb out s sig with
    | none =>
      have h2 : (step out s sig).result = none := by rw [hstep, hcb]
      have h3 := ih (step out s sig) h2
      show (run out (step out s sig) rest).result = firstCb out s (sig :: rest)
      rw [h3]
      simp only [ firstCb, hcb]
    | some t =>
      have h2 : (step out s sig).result = some t := by rw [hstep, hcb]
      have h3 := run_result_some out rest (step out s sig) t h2
      show (run out (step out s sig) rest).result = firstCb out s (sig :: rest)
      rw [h3]
      simp only [ firstCb, hcb]

/-- C1: the promise outcome of a run equals the outcome of the first
`cb` call fired by the five channels (encoder close, encoder process
error, stream-write error, console-error detection, setup failure), and
once some prefix of the signals has settled the result, any further
signals leave it unchanged: every later write attempt is a no-op,
including a second error in the same tick and a success signal arriving
after a console-error detection. -/
theorem terminal_result_single_resolution (out : String) (sigs extra : List Signal) :
    ((run out initState sigs).result = firstCb out initState sigs) ∧
    (∀ r, (run out initState sigs).result = some r →
      (run out initState (sigs ++ extra)).result = some r) := by
  constructor
  · exact run_result_none out sigs initState rfl
  · intro r h
    have hsplit : run out initState (sigs ++ extra) = run out (run out initState sigs) extra := by
      simp [ run, List.foldl_append]
    rw [hsplit]
    exact run_result_some out extra (run out initState sigs) r h

/-- Witness for C1: an encoder process error followed in the same tick
by a stream error and then an encoder close still yields the first
error as the unique promise outcome. -/
theorem terminal_result_single_resolution_witness :
    (run "o.mp4" initState
        ([Signal.ffmpegError "boom"] ++ [Signal.stdinError "late", Signal.ffmpegClose])).result
      = some (TermResult.rejected (JSErr.errObj "boom")) :=
  (terminal_result_single_resolution "o.mp4" [Signal.ffmpegError "boom"]
      [Signal.stdinError "late", Signal.ffmpegClose]).2
    (TermResult.rejected (JSErr.errObj "boom")) (by decide)

/-- A marker-bearing console text is nonempty. -/
theorem marker_text_nonempty (text : String) (h : startsWithMarker text = true) :
    ¬ text = "" := by
  intro he
  rw [he] at h
  exact absurd h (by decide)

/-- C2 (amended): a console message of severity error whose text starts
with the marker forces the state to `closed` and releases the browser
in any lifecycle state, and, when the promise is still pending, rejects
it with the raw full message text (marker included) as payload. -/
theorem console_error_forces_abnormal_finish (out : String) (s : OrchState) (ty text : String)
    (hty : ty = "error") (hmark : startsWithMarker text = true) :
    (step out s (Signal.consoleMsg ty text)).state = LifecycleState.closed ∧
    (step out s (Signal.consoleMsg ty text)).browserClosed = true ∧
    (s.result = none →
      (step out s (Signal.consoleMsg ty text)).result
        = some (TermResult.rejected (JSErr.str text))) := by
  have hc : ty = "error" ∧ startsWithMarker text = true := ⟨hty, hmark⟩
  have htext : ¬ text = "" := marker_text_nonempty text hmark
  refine ⟨?_, ?_, ?_⟩
  · simp [ step, if_pos hc]
  · simp [ step, if_pos hc]
  · intro hres
    simp [ step, if_pos hc, promiseSettle, hres, cbOutcome, JSErr.truthy, htext]

/-- Witness for C2 at a concrete marker-bearing console message
received in the initial state. -/
theorem console_error_forces_abnormal_finish_witness :
    (step "o" initState (Signal.consoleMsg "error" "Replayer Uncaught Error:boom")).state
        = LifecycleState.closed ∧
    (step "o" initState (Signal.consoleMsg "error" "Replayer Uncaught Error:boom")).browserClosed
        = true ∧
    (step "o" initState (Signal.consoleMsg "error" "Replayer Uncaught Error:boom")).result
        = some (TermResult.rejected (JSErr.str "Replayer Uncaught Error:boom")) := by
  have h := console_error_forces_abnormal_finish "o" initState "error"
    "Replayer Uncaught Error:boom" rfl (by decide)
  exact ⟨h.1, h.2.1, h.2.2 rfl⟩

/-- Counterexample for C2: the failure payload is the raw full console
text, marker included, not a typed value carrying only the suffix. -/
theorem console_error_payload_counterexample :
    (step "o" initState (Signal.consoleMsg "error" "Replayer Uncaught Error:boom")).result
        = some (TermResult.rejected (JSErr.str "Replayer Uncaught Error:boom")) ∧
    (((step "o" initState (Signal.consoleMsg "error" "Replayer Uncaught Error:boom")).result
        == some (TermResult.rejected (JSErr.str "boom"))) = false) := by
  exact ⟨by decide, by decide⟩

/-- No handler ever writes `idle` into the state field. -/
theorem step_state_not_idle (out : String) (s : OrchState) (sig : Signal)
    (h : (step out s sig).state = LifecycleState.idle) : s.state = LifecycleState.idle := by
  cases sig <;> simp only [ step] at h <;> (try split at h) <;> simp_all

/-- Along a whole run, a state observed as `idle` was `idle` from the
beginning. -/
theorem run_state_not_idle (out : String) (sigs : List Signal) :
    ∀ s : OrchState, (run out s sigs).state = LifecycleState.idle →
      s.state = LifecycleState.idle := by
  induction sigs with
  | nil =>
    intro s h
    exact h
  | cons sig rest ih =>
    intro s h
    exact step_state_not_idle out s sig (ih (step out s sig) h)

/-- A closing signal drives the state to `closed`. -/
theorem step_state_closes (out : String) (s : OrchState) (sig : Signal)
    (h : closesRun sig = true) : (step out s sig).state = LifecycleState.closed := by
  cases sig with
  | start => exact absurd h (by decide)
  | finish => rfl
  | ffmpegClose => exact absurd h (by decide)
  | ffmpegError e => simp [ closesRun] at h
  | stdinError e => simp [ closesRun] at h
  | consoleMsg ty text =>
    by_cases hc : ty = "error" ∧ startsWithMarker text = true
    · simp [ step, if_pos hc]
    · simp only [ closesRun, if_neg hc] at h
      exact absurd h (by decide)
  | setupFail e => simp [ closesRun] at h

/-- A signal that is neither the start signal nor a closing signal
leaves the state field unchanged. -/
theorem step_state_same (out : String) (s : OrchState) (sig : Signal)
    (h1 : sig ≠ Signal.start) (h2 : closesRun sig = false) :
    (step out s sig).state = s.state := by
  cases sig with
  | start => exact absurd rfl h1
  | finish => exact absurd h2 (by decide)
  | ffmpegClose =>
    simp only [ step]
    split <;> rfl
  | ffmpegError e =>
    simp only [ step]
    split <;> rfl
  | stdinError e =>
    simp only [ step]
    split <;> rfl
  | consoleMsg ty text =>
    by_cases hc : ty = "error" ∧ startsWithMarker text = true
    · simp only [ closesRun, if_pos hc] at h2
      exact absurd h2 (by decide)
    · simp [ step, if_neg hc]
  | setupFail e => rfl

/-- Every lifecycle rank is at most two. -/
theorem rank_le_two (st : LifecycleState) : rank st ≤ 2 := by
  cases st <;> decide

/-- The rank of the state never decreases along a run in which no start
signal arrives after a closing signal and, if the run begins closed, no
start signal arrives at all. -/
theorem run_rank_mono (out : String) :
    ∀ (l : List Signal) (s : OrchState),
      noStartAfterClose l → (s.state = LifecycleState.closed → Signal.start ∉ l) →
      rank s.state ≤ rank (run out s l).state := by
  intro l
  induction l with
  | nil =>
    intro s _ _
    exact Nat.le_refl _
  | cons sig rest ih =>
    intro s hns hcl
    by_cases hstart : sig = Signal.start
    · subst hstart
      have hsnc : s.state ≠ LifecycleState.closed := by
        intro hc
        exact hcl hc (List.mem_cons_self _ _)
      have h1 : rank s.state ≤ 1 := by
        cases hs : s.state with
        | idle => decide
        | recording => decide
        | closed => exact absurd hs hsnc
      have h2 : (step out s Signal.start).state = LifecycleState.recording := rfl
      have h3 := ih (step out s Signal.start) hns.2
        (by rw [h2]; intro hc; exact absurd hc (by decide))
      calc rank s.state ≤ 1 := h1
        _ = rank (step out s Signal.start).state := by rw [h2]; rfl
        _ ≤ rank (run out (step out s Signal.start) rest).state := h3
    · by_cases hclose : closesRun sig = true
      · have h2 := step_state_closes out s sig hclose
        have hstartnotin : Signal.start ∉ rest := hns.1 hclose
        have h3 := ih (step out s sig) hns.2 (fun _ => hstartnotin)
        calc rank s.state ≤ 2 := rank_le_two s.state
          _ = rank (step out s sig).state := by rw [h2]; rfl
          _ ≤ rank (run out (step out s sig) rest).state := h3
      · have hfalse : closesRun sig = false := by
          cases hcr : closesRun sig with
          | false => rfl
          | true => exact absurd hcr hclose
        have h2 := step_state_same out s sig hstart hfalse
        have h3 := ih (step out s sig) hns.2
          (by
            rw [h2]
            intro hc hmem
            exact hcl hc (List.mem_cons_of_mem sig hmem))
        calc rank s.state = rank (step out s sig).state := by rw [h2]
          _ ≤ rank (run out (step out s sig) rest).state := h3

/-- If a run ends with the state `closed`, either it began `closed` or
some closing signal occurred along the run. -/
theorem run_closed_has_closing (out : String) :
    ∀ (l : List Signal) (s : OrchState),
      (run out s l).state = LifecycleState.closed →
      s.state = LifecycleState.closed ∨ ∃ sig ∈ l, closesRun sig = true := by
  intro l
  induction l with
  | nil =>
    intro s h
    exact Or.inl h
  | cons sig rest ih =>
    intro s h
    rcases ih (step out s sig) h with h1 | ⟨sg, hm, hc⟩
    · by_cases hclose : closesRun sig = true
      · exact Or.inr ⟨sig, List.mem_cons_self _ _, hclose⟩
      · by_cases hstart : sig = Signal.start
        · subst hstart
          have hrec : (step out s Signal.start).state = LifecycleState.recording := rfl
          rw [hrec] at h1
          exact absurd h1 (by decide)
        · have hfalse : closesRun sig = false := by
            cases hcr : closesRun sig with
            | false => rfl
            | true => exact absurd hcr hclose
          have := step_state_same out s sig hstart hfalse
          rw [this] at h1
          exact Or.inl h1
    · exact Or.inr ⟨sg, List.mem_cons_of_mem sig hm, hc⟩

/-- The no-start-after-close condition restricts to the right part of
an appended list. -/
theorem noStartAfterClose_append_right :
    ∀ l1 l2 : List Signal, noStartAfterClose (l1 ++ l2) → noStartAfterClose l2 := by
  intro l1
  induction l1 with
  | nil =>
    intro l2 h
    exact h
  | cons sig rest ih =>
    intro l2 h
    exact ih l2 h.2

/-- Under the no-start-after-close condition, a closing signal in the
left part of an appended list forbids start signals in the right part. -/
theorem noStartAfterClose_closing_left :
    ∀ l1 l2 : List Signal, noStartAfterClose (l1 ++ l2) →
      (∃ sig ∈ l1, closesRun sig = true) → Signal.start ∉ l2 := by
  intro l1
  induction l1 with
  | nil =>
    intro l2 _ h
    rcases h with ⟨sig, hm, _⟩
    exact absurd hm (List.not_mem_nil sig)
  | cons s1 rest ih =>
    intro l2 hns hex
    rcases hex with ⟨sig, hm, hc⟩
    rcases List.mem_cons.mp hm with heq | hm2
    · subst heq
      intro hmem
      exact hns.1 hc (List.mem_append_right rest hmem)
    · exact ih l2 hns.2 ⟨sig, hm2, hc⟩

/-- Counterexample for C3: the code does not guard `startRecording`, so
a start signal processed after a finish signal moves the state from
`closed` back to `recording`. -/
theorem state_reversal_counterexample :
    (run "o" initState [Signal.finish]).state = LifecycleState.closed ∧
    (run "o" initState [Signal.finish, Signal.start]).state = LifecycleState.recording := by
  exact ⟨by decide, by decide⟩

/-- C3 (amended): the state never returns to `idle`, and along any run
in which no start signal arrives after a finish or console-error
signal — the ordering the injected payload guarantees — the lifecycle
state only moves forward along idle, recording, closed. -/
theorem state_monotone_forward (out : String) (l1 l2 : List Signal) :
    ((run out initState (l1 ++ l2)).state = LifecycleState.idle →
      (run out initState l1).state = LifecycleState.idle) ∧
    (noStartAfterClose (l1 ++ l2) →
      rank (run out initState l1).state ≤ rank (run out initState (l1 ++ l2)).state) := by
  have hsplit : run out initState (l1 ++ l2) = run out (run out initState l1) l2 := by
    simp [ run, List.foldl_append]
  constructor
  · intro h
    rw [hsplit] at h
    exact run_state_not_idle out l2 (run out initState l1) h
  · intro hns
    rw [hsplit]
    apply run_rank_mono out l2 (run out initState l1)
      (noStartAfterClose_append_right l1 l2 hns)
    intro hc
    rcases run_closed_has_closing out l1 initState hc with h1 | hex
    · exact absurd h1 (by decide)
    · exact noStartAfterClose_closing_left l1 l2 hns hex

/-- Witness for C3 at a run of two non-closing, non-start signals. -/
theorem state_monotone_forward_witness :
    (run "o" initState [Signal.ffmpegClose]).state = LifecycleState.idle ∧
    rank (run "o" initState [Signal.ffmpegClose]).state
      ≤ rank (run "o" initState ([Signal.ffmpegClose] ++ [Signal.setupFail "e"])).state :=
  ⟨(state_monotone_forward "o" [Signal.ffmpegClose] [Signal.setupFail "e"]).1 (by decide),
    (state_monotone_forward "o" [Signal.ffmpegClose] [Signal.setupFail "e"]).2
      ⟨fun h => absurd h (by decide), fun h => absurd h (by decide), trivial⟩⟩

/-- A piece at the front of an appended list that is short enough lies
at the front of the left part. -/
theorem prefOfAppendLe {p a t : List Char} (h : p <+: a ++ t) (hl : p.length ≤ a.length) :
    p <+: a := by
  have h2 : p = (a ++ t).take p.length := List.prefix_iff_eq_take.mp h
  rw [ List.take_append_of_le_length hl] at h2
  rw [h2]
  exact List.take_prefix _ _

/-- The left part of an appended list lies at the front of any longer
piece at the front of the whole list. -/
theorem prefOfAppendGe {p a t : List Char} (h : p <+: a ++ t) (hl : a.length ≤ p.length) :
    a <+: p :=
  List.prefix_of_prefix_length_le (List.prefix_append a t) h hl

/-- No nonempty proper tail piece of the pattern occurs at the front of
the replacement string. -/
theorem patTailNotFrontOfEscaped (p : List Char) (hs : p <:+ scriptCloseChars) (hne : p ≠ [])
    (hlen : p.length ≤ 8) : ¬ p <+: escapedScriptChars := by
  intro hpref
  obtain ⟨q, hq⟩ := hs
  have hp : scriptCloseChars.drop q.length = p := by
    rw [← hq]
    exact List.drop_left q p
  have hlen9 : scriptCloseChars.length = 9 := by decide
  have hsum : q.length + p.length = 9 := by
    rw [← hlen9, ← hq, List.length_append]
  have hppos : 0 < p.length := List.length_pos.mpr hne
  obtain ⟨k, hk⟩ : ∃ k, q.length = k := ⟨q.length, rfl⟩
  have hk1 : 1 ≤ k := by omega
  have hk8 : k ≤ 8 := by omega
  rw [hk] at hp
  rw [← hp] at hpref
  interval_cases k <;> revert hpref <;> decide

/-- No nonempty proper front piece of the pattern occurs at the back of
the replacement string. -/
theorem patFrontNotBackOfEscaped (s : List Char) (hp : s <+: scriptCloseChars) (hne : s ≠ [])
    (hlen : s.length ≤ 8) : ¬ s <:+ escapedScriptChars := by
  intro hsuf
  have hs : s = scriptCloseChars.take s.length := List.prefix_iff_eq_take.mp hp
  have hppos : 0 < s.length := List.length_pos.mpr hne
  obtain ⟨k, hk⟩ : ∃ k, s.length = k := ⟨s.length, rfl⟩
  have hk1 : 1 ≤ k := by omega
  have hk8 : k ≤ 8 := by omega
  rw [hk] at hs
  rw [hs] at hsuf
  interval_cases k <;> revert hsuf <;> decide

/-- An occurrence inside an appended list either begins inside the left
part or lies entirely inside the right part. -/
theorem infixAppendCases {p t : List Char} :
    ∀ a : List Char, p <:+: a ++ t → (∃ s, s <:+ a ∧ p <+: s ++ t) ∨ p <:+: t := by
  intro a
  induction a with
  | nil =>
    intro h
    right
    simpa using h
  | cons x a2 ih =>
    intro h
    have h2 : p <:+: x :: (a2 ++ t) := by simpa using h
    rcases List.infix_cons_iff.mp h2 with h3 | h4
    · left
      exact ⟨x :: a2, List.suffix_refl _, by simpa using h3⟩
    · rcases ih h4 with ⟨s, hs1, hs2⟩ | h5
      · left
        exact ⟨s, hs1.trans (List.suffix_cons x a2), hs2⟩
      · right
        exact h5

/-- If a nonempty proper tail piece of the pattern sits at the front of
the scanned output, it already sat at the front of the input. -/
theorem patTailFrontTransfer :
    ∀ l p : List Char, p <:+ scriptCloseChars → p ≠ [] → p.length ≤ 8 →
      p <+: replaceScriptClose l → p <+: l := by
  intro l
  induction l using replaceScriptClose.induct with
  | case1 =>
    intro p hs hne hlen hp
    simp only [ replaceScriptClose] at hp
    obtain ⟨t, ht⟩ := hp
    exact absurd ( List.append_eq_nil.mp ht).1 hne
  | case2 c cs hmatch ih =>
    intro p hs hne hlen hp
    have heq : replaceScriptClose (c :: cs)
        = escapedScriptChars ++ replaceScriptClose (cs.drop 8) := by
      simp [ replaceScriptClose, hmatch]
    rw [heq] at hp
    have hlp : p.length ≤ escapedScriptChars.length := by
      have h10 : escapedScriptChars.length = 10 := by decide
      omega
    exact absurd (prefOfAppendLe hp hlp) (patTailNotFrontOfEscaped p hs hne hlen)
  | case3 c cs hmatch ih =>
    intro p hs hne hlen hp
    have heq : replaceScriptClose (c :: cs) = c :: replaceScriptClose cs := by
      simp [ replaceScriptClose, hmatch]
    rw [heq] at hp
    rcases p with _ | ⟨x, p2⟩
    · exact absurd rfl hne
    · rw [ List.cons_prefix_cons] at hp
      obtain ⟨hx, hp2⟩ := hp
      subst hx
      have hs2 : p2 <:+ scriptCloseChars := by
        obtain ⟨q, hq⟩ := hs
        refine ⟨q ++ [x], ?_⟩
        rw [ List.append_assoc]
        simpa using hq
      rcases Decidable.em (p2 = []) with he | hne2
      · subst he
        rw [ List.cons_prefix_cons]
        exact ⟨rfl, List.nil_prefix⟩
      · have hlen2 : p2.length ≤ 8 := by
          simp only [ List.length_cons] at hlen
          omega
        have htr := ih p2 hs2 hne2 hlen2 hp2
        rw [ List.cons_prefix_cons]
        exact ⟨rfl, htr⟩

/-- The script-closing pattern never occurs in the scanned output. -/
theorem scriptCloseNotInfixOutput :
    ∀ l : List Char, ¬ scriptCloseChars <:+: replaceScriptClose l := by
  intro l
  induction l using replaceScriptClose.induct with
  | case1 =>
    intro h
    simp only [ replaceScriptClose] at h
    revert h
    decide
  | case2 c cs hmatch ih =>
    intro h
    have heq : replaceScriptClose (c :: cs)
        = escapedScriptChars ++ replaceScriptClose (cs.drop 8) := by
      simp [ replaceScriptClose, hmatch]
    rw [heq] at h
    rcases infixAppendCases escapedScriptChars h with ⟨s, hs1, hs2⟩ | h2
    · by_cases hsl : scriptCloseChars.length ≤ s.length
      · have hps : scriptCloseChars <+: s := prefOfAppendLe hs2 hsl
        have hinr : scriptCloseChars <:+: escapedScriptChars :=
          ( hps.isInfix).trans ( hs1.isInfix)
        revert hinr
        decide
      · push_neg at hsl
        rcases Decidable.em (s = []) with hse | hse
        · subst hse
          apply ih
          apply List.IsPrefix.isInfix
          simpa using hs2
        · have hsp : s <+: scriptCloseChars := prefOfAppendGe hs2 (by omega)
          have hs8 : s.length ≤ 8 := by
            have h9 : scriptCloseChars.length = 9 := by decide
            omega
          exact patFrontNotBackOfEscaped s hsp hse hs8 hs1
    · exact ih h2
  | case3 c cs hmatch ih =>
    intro h
    have heq : replaceScriptClose (c :: cs) = c :: replaceScriptClose cs := by
      simp [ replaceScriptClose, hmatch]
    rw [heq] at h
    rcases List.infix_cons_iff.mp h with h1 | h2
    · have hpat : scriptCloseChars = '<' :: scriptTailChars := by decide
      rw [hpat] at h1
      rw [ List.cons_prefix_cons] at h1
      obtain ⟨hc, htail⟩ := h1
      have htr := patTailFrontTransfer cs scriptTailChars (by decide) (by decide) (by decide) htail
      have hfinal : scriptCloseChars <+: c :: cs := by
        rw [hpat, ← hc]
        exact List.cons_prefix_cons.mpr ⟨rfl, htr⟩
      exact hmatch ( List.isPrefixOf_iff_prefix.mpr hfinal)
    · exact ih h2

/-- The executable occurrence scan agrees with the occurrence relation. -/
theorem hasScriptClose_iff : ∀ l : List Char, hasScriptClose l = true ↔ scriptCloseChars <:+: l := by
  intro l
  induction l with
  | nil => decide
  | cons c cs ih =>
    simp only [ hasScriptClose, Bool.or_eq_true]
    rw [ih]
    rw [ List.isPrefixOf_iff_prefix]
    exact ( List.infix_cons_iff).symm

/-- C10: in the HTML document, the serialized events are embedded with
every occurrence of the script-closing sequence replaced by its escaped
form, and for every possible serialized events character sequence the
embedded result contains no occurrence of the script-closing sequence,
so no payload can terminate the injected script element early. -/
theorem script_close_never_in_embedded_events (s : List Char) :
    hasScriptClose (replaceScriptClose s) = false := by
  have h := scriptCloseNotInfixOutput s
  cases hb : hasScriptClose (replaceScriptClose s) with
  | false => rfl
  | true => exact absurd ((hasScriptClose_iff (replaceScriptClose s)).mp hb) h

/-- Witness for C5 at three consecutive failing ticks on a concrete
loop state. -/
theorem capture_failures_skipped_witness :
    (tick LifecycleState.recording JSErr.null CaptureOutcome.failed)^[3]
        { timerActive := true, framesWritten := 0, stdinEnded := false }
      = { timerActive := true, framesWritten := 0, stdinEnded := false } :=
  capture_failures_skipped 3 { timerActive := true, framesWritten := 0, stdinEnded := false }

/-- Witness for C7 at a concrete pair of truthy dimensions. -/
theorem wrapper_selector_truthy_iff_witness :
    wrapperSelector { width := some 2, height := some 3 } = ".rr-player" :=
  (wrapper_selector_truthy_iff { width := some 2, height := some 3 }).1.mpr
    ⟨⟨2, rfl, by decide⟩, ⟨3, rfl, by decide⟩⟩

/-- Witness for C8 at a concrete configuration. -/
theorem ffmpeg_args_shape_witness :
    ffmpegArgs (⟨10, true, "in.json", "out.mp4", {}⟩ : RRvideoConfig)
      = ["-framerate", "10"] ++ ["-f", "image2pipe", "-i", "-"] ++ ["-y"] ++ ["out.mp4"] :=
  ffmpeg_args_shape (⟨10, true, "in.json", "out.mp4", {}⟩ : RRvideoConfig)

/-- Witness for C10 at a concrete serialized events string containing
the pattern. -/
theorem script_close_never_in_embedded_events_witness :
    hasScriptClose (replaceScriptClose ("a</script>b".data)) = false :=
  script_close_never_in_embedded_events ("a</script>b".data)
